import Mathlib

/-!
A shallow embedding of the Settings API of this repository
(`src/core/server/api/v0.1/settings.js`) together with theorems about the
behaviour of `browse`, `read`, `edit`, `upload` and `download`.

Modelling conventions:

* The settings cache is a list of `Setting` values; `settingsCache.get(key)`
  is `cacheGet` (the first entry carrying the requested key).
* A caller context (`options.context`) is an `Option Context`; the JS test
  `options.context && options.context.internal` is `isInternal`.
* The delegated permission engine (`canThis`) is passed in as a parameter:
  a per-key `String → Bool` verdict for read/edit and a `Bool` for browse.
* A rejected promise becomes `Except.error`; the error taxonomy is
  `ApiError`.  The synchronous `TypeError` that `edit` throws when
  `object.settings[0]` is `undefined` (empty batch after the `type` entry
  is stripped) is the distinguished constructor `ApiError.typeError`.
* In `canEditAllSettings`, the per-entry checks that reject without
  consulting the engine (missing key, `active_theme`, core setting from an
  external context) produce already-rejected promises, so `Promise.all`
  surfaces the earliest such rejection in array order; an engine denial is
  asynchronous and uniformly normalised to a fixed `NoPermissionError`, so
  it only surfaces when every entry passes the synchronous checks.
  `entryImmediate` and `canEditAllSettings` encode exactly this ordering.
* File-system state for `upload` is `FSState`; the outcome of each
  `siteApp.reload()` call is a parameter `Nat → Option String` indexed by
  call order, and every call is recorded (together with the artifact
  contents it would load) in `FSState.reloads`.
-/

namespace GhostSettings

/-- One settings-cache entry: `key`, string `value` and access class `type`. -/
structure Setting where
  key : String
  value : String
  type : String
  deriving Repr, DecidableEq

/-- A caller context; `internal` mirrors `options.context.internal`. -/
structure Context where
  internal : Bool
  deriving Repr, DecidableEq

/-- The JS truthiness test `options.context && options.context.internal`. -/
def isInternal : Option Context → Bool
  | some c => c.internal
  | none => false

/-- `settingsCache.get(key, {resolve: false})`: first cache entry with the key. -/
def cacheGet (cache : List Setting) (key : String) : Option Setting :=
  cache.find? (fun s => s.key == key)

/-- i18n key of the message used when a core setting is accessed externally. -/
def msgAccessCore : String := "errors.api.settings.accessCoreSettingFromExtReq"

/-- i18n key of the fixed message substituted for an engine denial on edit. -/
def msgNoPermEdit : String := "errors.api.settings.noPermissionToEditSettings"

/-- i18n key of the fixed message substituted for an engine denial on read. -/
def msgNoPermRead : String := "errors.api.settings.noPermissionToReadSettings"

/-- i18n key of the message used when a key is missing from the cache. -/
def msgProblemFinding (key : String) : String :=
  "errors.api.settings.problemFindingSetting " ++ key

/-- i18n key of the generic resource-not-found message (permalinks veto). -/
def msgResourceNotFound : String := "errors.errors.resourceNotFound"

/-- i18n key of the fixed message explaining the `active_theme` prohibition. -/
def msgActiveTheme : String := "errors.api.settings.activeThemeSetViaAPI.error"

/-- The error taxonomy of the settings API.  `browseDenied` stands for the
permission engine's own (un-normalised) rejection of a browse; `typeError`
stands for the synchronous JS `TypeError` raised by dereferencing
`object.settings[0].key` on an empty list. -/
inductive ApiError
  | notFound (msg : String)
  | noPermission (msg : String)
  | badRequest (msg : String)
  | validation
  | browseDenied
  | typeError
  deriving Repr, DecidableEq

/-- Boolean test for a not-found outcome. -/
def isNotFoundErr {α : Type} : Except ApiError α → Bool
  | .error (.notFound _) => true
  | _ => false

/-- Boolean test for a permission-denied outcome. -/
def isNoPermissionErr {α : Type} : Except ApiError α → Bool
  | .error (.noPermission _) => true
  | _ => false

/-- Boolean test for a bad-request outcome. -/
def isBadRequestErr {α : Type} : Except ApiError α → Bool
  | .error (.badRequest _) => true
  | _ => false

/-- Boolean test for any rejection. -/
def isErr {α : Type} : Except ApiError α → Bool
  | .error _ => true
  | .ok _ => false

/-- `settingsFilter`: keep the entries whose access class appears in the
comma-separated filter string; a missing or empty filter (falsy in JS)
keeps everything. -/
def settingsFilter (settings : List Setting) (filter : Option String) : List Setting :=
  match filter with
  | none => settings
  | some f =>
    if f = "" then settings
    else settings.filter (fun s => (f.splitOn ",").contains s.type)

/-- The API response envelope: the filtered settings plus
`meta.filters.type`, which is present only when a truthy filter was given. -/
structure SettingsPayload where
  settings : List Setting
  filterType : Option String
  deriving Repr, DecidableEq

/-- `settingsResult`: filter by access class and attach the meta data. -/
def settingsResult (settings : List Setting) (type : Option String) : SettingsPayload :=
  { settings := settingsFilter settings type,
    filterType :=
      match type with
      | none => none
      | some t => if t = "" then none else some t }

/-- The two result shapes of `browse`: the bare array returned on the
no-context path and the full envelope returned otherwise. -/
inductive BrowseResult
  | bare (settings : List Setting)
  | payload (p : SettingsPayload)
  deriving Repr, DecidableEq

/-- `settings.browse(options)`. -/
def browse (cache : List Setting) (ctx : Option Context) (typeFilter : Option String)
    (engineBrowse : Bool) : Except ApiError BrowseResult :=
  let result := settingsResult cache typeFilter
  match ctx with
  | none => .ok (.bare (result.settings.filter (fun s => s.type == "blog")))
  | some c =>
    if engineBrowse then
      if c.internal then .ok (.payload result)
      else
        .ok (.payload { result with
          settings := result.settings.filter
            (fun s => s.type != "core" && s.key != "permalinks") })
    else .error .browseDenied

/-- `settings.read(options)` for `options = {key, context}`. -/
def read (cache : List Setting) (ctx : Option Context) (engineRead : String → Bool)
    (key : String) : Except ApiError SettingsPayload :=
  match cacheGet cache key with
  | none => .error (.notFound (msgProblemFinding key))
  | some s =>
    if s.type == "core" && !(isInternal ctx) then .error (.noPermission msgAccessCore)
    else if s.key == "permalinks" then .error (.notFound msgResourceNotFound)
    else if s.type == "blog" then .ok (settingsResult [s] none)
    else if engineRead key then .ok (settingsResult [s] none)
    else .error (.noPermission msgNoPermRead)

/-- A caller-supplied setting value before normalisation: either already a
string, or a non-string value carried together with its canonical JSON
serialisation. -/
inductive JSValue
  | str (s : String)
  | nonstr (json : String)
  deriving Repr, DecidableEq

/-- The value after the clean-data step: a string value is kept as is, a
non-string value is replaced by its canonical JSON serialisation. -/
def stringifyVal : JSValue → String
  | .str s => s
  | .nonstr j => j

/-- One entry of the caller-supplied edit batch. -/
structure RawEntry where
  key : String
  value : JSValue
  deriving Repr, DecidableEq

/-- One entry after value normalisation. -/
structure NEntry where
  key : String
  value : String
  deriving Repr, DecidableEq

/-- Value normalisation of a single batch entry. -/
def stringifyEntry (e : RawEntry) : NEntry :=
  { key := e.key, value := stringifyVal e.value }

/-- The entry list `edit` works on after its clean-data step: values are
stringified first, then every entry keyed `type` is rejected from the list. -/
def editEntries (batch : List RawEntry) : List NEntry :=
  (batch.map stringifyEntry).filter (fun e => e.key != "type")

/-- The access-class hint `edit` extracts from the batch: the value of the
first entry keyed `type` (looked up after value stringification). -/
def editTypeHint (batch : List RawEntry) : Option String :=
  ((batch.map stringifyEntry).find? (fun e => e.key == "type")).map NEntry.value

/-- The synchronously-rejecting part of the per-entry check inside
`canEditAllSettings`: a missing key rejects not-found, a cached entry keyed
`active_theme` rejects bad-request, and a core-class entry accessed from a
non-internal context rejects permission-denied; otherwise the decision is
delegated to the engine. -/
def entryImmediate (cache : List Setting) (ctx : Option Context) (e : NEntry) :
    Option ApiError :=
  match cacheGet cache e.key with
  | none => some (.notFound (msgProblemFinding e.key))
  | some s =>
    if s.key == "active_theme" then some (.badRequest msgActiveTheme)
    else if s.type == "core" && !(isInternal ctx) then some (.noPermission msgAccessCore)
    else none

/-- `canEditAllSettings(settingsInfo, options)`: the earliest synchronous
rejection (array order) wins; otherwise the batch succeeds exactly when the
engine allows every entry, and an engine denial is normalised to the fixed
permission-denied message. -/
def canEditAllSettings (cache : List Setting) (ctx : Option Context)
    (engineEdit : String → Bool) (entries : List NEntry) : Except ApiError Unit :=
  match entries.findSome? (entryImmediate cache ctx) with
  | some e => .error e
  | none =>
    if entries.all (fun e => engineEdit e.key) then .ok ()
    else .error (.noPermission msgNoPermEdit)

/-- The outcome of an edit call: the settled result together with a flag
recording whether the persistence collaborator (`models.Settings.edit`)
was invoked. -/
structure EditOutcome where
  result : Except ApiError SettingsPayload
  persisted : Bool
  deriving Repr

/-- The edit pipeline after normalisation: first-entry permalinks veto
(dereferencing the head, hence `typeError` on an empty list), then
`canEditAllSettings`, then validation by the external document checker,
then persistence and projection of the edited entries filtered by the
access-class hint. -/
def editCore (cache : List Setting) (ctx : Option Context) (engineEdit : String → Bool)
    (validateOk : Bool) (persistFn : List NEntry → List Setting)
    (entries : List NEntry) (typeHint : Option String) : EditOutcome :=
  match entries with
  | [] => { result := .error .typeError, persisted := false }
  | first :: rest =>
    if first.key == "permalinks" then
      { result := .error (.notFound msgResourceNotFound), persisted := false }
    else
      match canEditAllSettings cache ctx engineEdit (first :: rest) with
      | .error e => { result := .error e, persisted := false }
      | .ok _ =>
        if validateOk then
          { result := .ok (settingsResult (persistFn (first :: rest)) typeHint),
            persisted := true }
        else { result := .error .validation, persisted := false }

/-- `settings.edit(object, options)` for a batch `object.settings`.
`validateOk` abstracts the external document checker, `persistFn` the
persistence collaborator (which returns the updated representations). -/
def edit (cache : List Setting) (ctx : Option Context) (engineEdit : String → Bool)
    (validateOk : Bool) (persistFn : List NEntry → List Setting)
    (batch : List RawEntry) : EditOutcome :=
  editCore cache ctx engineEdit validateOk persistFn (editEntries batch) (editTypeHint batch)

/-- Errors of the routes-artifact transaction. -/
inductive UploadErr
  | noPermission
  | reload (e : String)
  deriving Repr, DecidableEq

/-- File-system and side-effect state of the routes-artifact transaction:
the contents of `routes.yaml`, the contents of the timestamped backup file
(if taken), the number of `urlService.resetGenerators` calls, and the
contents of `routes.yaml` at each `siteApp.reload()` call, in call order. -/
structure FSState where
  routes : String
  backup : Option String := none
  resets : Nat := 0
  reloads : List String := []
  deriving Repr, DecidableEq

/-- `settings.upload(options)`, sequentialised along its promise chain:
permission gate, backup copy of `routes.yaml`, replace with the uploaded
contents, release of url generators, reload; on a reload failure the
artifact is copied back from the backup file and reloaded once more, and
the original error is re-raised after a successful compensating reload
while a failing compensating reload propagates its own error.
`reloadFail n` is the outcome of the `n`-th `siteApp.reload()` call
(`none` means success). -/
def upload (perm : Bool) (prior newContents : String) (reloadFail : Nat → Option String) :
    Except UploadErr Unit × FSState :=
  let fs0 : FSState := { routes := prior }
  if perm then
    let s1 : FSState := { fs0 with backup := some fs0.routes }
    let s2 : FSState := { s1 with routes := newContents }
    let s3 : FSState := { s2 with resets := s2.resets + 1 }
    let s4 : FSState := { s3 with reloads := s3.reloads ++ [s3.routes] }
    match reloadFail 0 with
    | none => (.ok (), s4)
    | some e1 =>
      let s5 : FSState := { s4 with routes := s4.backup.getD s4.routes }
      let s6 : FSState := { s5 with reloads := s5.reloads ++ [s5.routes] }
      match reloadFail 1 with
      | none => (.error (.reload e1), s6)
      | some e2 => (.error (.reload e2), s6)
  else (.error .noPermission, fs0)

/-- A file-read failure: its `code` property and whether the error already
carries the recognised system-level (ignition) classification. -/
structure ReadErr where
  code : Option String
  ignition : Bool
  deriving Repr, DecidableEq

/-- The outcome of reading the routes artifact. -/
inductive ReadFileResult
  | ok (content : String)
  | fail (e : ReadErr)
  deriving Repr, DecidableEq

/-- The resolved value of `download`: the artifact text, or the empty
result substituted when the artifact does not exist. -/
inductive DownloadOut
  | content (s : String)
  | empty
  deriving Repr, DecidableEq

/-- Errors of `download`: the permission gate, a lower-layer error
propagated unchanged, or a read failure wrapped in a not-found error. -/
inductive DownloadErr
  | permissionDenied
  | propagated (e : ReadErr)
  | notFoundWrap (e : ReadErr)
  deriving Repr, DecidableEq

/-- `settings.download(options)`: permission gate, then the artifact read;
an `ENOENT` failure resolves with the empty result, an already-classified
(ignition) failure is re-thrown unchanged, anything else is wrapped as
not-found. -/
def download (perm : Bool) (r : ReadFileResult) : Except DownloadErr DownloadOut :=
  if perm then
    match r with
    | .ok s => .ok (.content s)
    | .fail e =>
      if e.code == some "ENOENT" then .ok .empty
      else if e.ignition then .error (.propagated e)
      else .error (.notFoundWrap e)
  else .error .permissionDenied

/-- Whether the `permalinks` cache entry is reachable past the core-class
check in `read`: it is missing, not core-class, or the caller is internal. -/
def permalinksReadVisible (cache : List Setting) (ctx : Option Context) : Bool :=
  match cacheGet cache "permalinks" with
  | none => true
  | some s => s.type != "core" || isInternal ctx

/-- A successful cache lookup returns an entry carrying the requested key. -/
theorem cacheGet_key {cache : List Setting} {k : String} {s : Setting}
    (h : cacheGet cache k = some s) : s.key = k := by
  have h2 : cache.find? (fun s => s.key == k) = some s := h
  have h3 := @List.find?_some Setting (fun s => s.key == k) s cache h2
  exact eq_of_beq h3

/-- A list containing an element on which `f` hits makes `findSome?` hit. -/
theorem findSome?_isSome_of_mem {α β : Type} {f : α → Option β} {l : List α} {a : α} {b : β}
    (hmem : a ∈ l) (hfa : f a = some b) : ∃ c, l.findSome? f = some c := by
  cases h : l.findSome? f with
  | some c => exact ⟨c, rfl⟩
  | none =>
    have hnone := List.findSome?_eq_none_iff.mp h a hmem
    rw [hfa] at hnone
    exact absurd hnone (by simp)

/-- `findSome?` skips a prefix on which `f` misses everywhere. -/
theorem findSome?_append_left_none {α β : Type} {f : α → Option β} (l₁ l₂ : List α)
    (h : ∀ x ∈ l₁, f x = none) : (l₁ ++ l₂).findSome? f = l₂.findSome? f := by
  induction l₁ with
  | nil => rfl
  | cons a l ih =>
    simp only [List.cons_append, List.findSome?_cons]
    rw [h a (by simp)]
    exact ih (fun x hx => h x (by simp [hx]))

/-- C2 (confirmed): when the reload triggered by `upload` fails, the artifact
is restored to the prior contents from the backup taken before the replace,
the dependent application is reloaded exactly once more (with the restored
contents), and the original reload error is raised to the caller; when the
compensating reload itself fails, its own error propagates instead and no
further reload is attempted. -/
theorem c2_upload_rollback (prior newContents e1 : String) (rf : Nat → Option String)
    (h0 : rf 0 = some e1) :
    (upload true prior newContents rf).2.routes = prior ∧
    (upload true prior newContents rf).2.backup = some prior ∧
    (upload true prior newContents rf).2.reloads = [newContents, prior] ∧
    (rf 1 = none → (upload true prior newContents rf).1 = .error (.reload e1)) ∧
    (∀ e2, rf 1 = some e2 → (upload true prior newContents rf).1 = .error (.reload e2)) := by
  cases h1 : rf 1 <;> simp [upload, h0, h1]

/-- Witness for C2 at a concrete input whose first reload fails. -/
theorem c2_upload_rollback_witness :
    (fun n => if n = 0 then some "route reload exploded" else none) 0 =
      some "route reload exploded" ∧
    (upload true "collections: old" "collections: new"
        (fun n => if n = 0 then some "route reload exploded" else none)).2.routes =
      "collections: old" :=
  ⟨rfl, (c2_upload_rollback "collections: old" "collections: new" "route reload exploded"
    (fun n => if n = 0 then some "route reload exploded" else none) rfl).1⟩

/-- C3 (confirmed): whatever the permission outcome and the reload outcomes,
`upload` terminates with the routes artifact holding a complete copy of
either the prior contents or the newly supplied contents; the replace and
restore steps are whole-file copies, so no intermediate mixture is ever a
reachable final state of the model. -/
theorem c3_upload_artifact_invariant (perm : Bool) (prior newContents : String)
    (rf : Nat → Option String) :
    (upload perm prior newContents rf).2.routes = prior ∨
    (upload perm prior newContents rf).2.routes = newContents := by
  cases perm with
  | false => left; simp [upload]
  | true =>
    cases h0 : rf 0 with
    | none => right; simp [upload, h0]
    | some e1 => left; cases h1 : rf 1 <;> simp [upload, h0, h1]

/-- C8 (confirmed): once the permission gate has passed, a read failure with
code `ENOENT` resolves `download` with the empty result, a failure already
carrying the recognised system-level classification propagates unchanged,
and any other failure is wrapped as a not-found error. -/
theorem c8_download_failures (e : ReadErr) (hne : e.code ≠ some "ENOENT") :
    (∀ b : Bool, download true (.fail ⟨some "ENOENT", b⟩) = .ok .empty) ∧
    (e.ignition = true → download true (.fail e) = .error (.propagated e)) ∧
    (e.ignition = false → download true (.fail e) = .error (.notFoundWrap e)) := by
  refine ⟨fun b => rfl, fun hi => ?_, fun hi => ?_⟩ <;>
    simp [download, hi, beq_false_of_ne hne]

/-- Witness for C8 at a concrete non-ENOENT read failure. -/
theorem c8_download_failures_witness :
    (ReadErr.mk (some "EACCES") false).code ≠ some "ENOENT" ∧
    download true (.fail ⟨some "EACCES", false⟩) =
      .error (.notFoundWrap ⟨some "EACCES", false⟩) :=
  ⟨by decide, (c8_download_failures ⟨some "EACCES", false⟩ (by decide)).2.2 rfl⟩

/-- C1 counterexample: the claim fails for `edit` on core-class settings
keyed `permalinks` (first-entry veto fires first: NotFound), `active_theme`
(the bad-request check precedes the core check: BadRequest) and `type`
(stripped during normalisation, leaving an empty batch: TypeError); none of
the three outcomes is PermissionDenied. -/
theorem c1_counterexample :
    ((edit [⟨"permalinks", "/:slug/", "core"⟩] none (fun _ => true) true (fun _ => [])
        [⟨"permalinks", .str "x"⟩]).result = .error (.notFound msgResourceNotFound) ∧
      isNoPermissionErr (edit [⟨"permalinks", "/:slug/", "core"⟩] none (fun _ => true) true
        (fun _ => []) [⟨"permalinks", .str "x"⟩]).result = false) ∧
    ((edit [⟨"active_theme", "casper", "core"⟩] none (fun _ => true) true (fun _ => [])
        [⟨"active_theme", .str "x"⟩]).result = .error (.badRequest msgActiveTheme) ∧
      isNoPermissionErr (edit [⟨"active_theme", "casper", "core"⟩] none (fun _ => true) true
        (fun _ => []) [⟨"active_theme", .str "x"⟩]).result = false) ∧
    ((edit [⟨"type", "core", "core"⟩] none (fun _ => true) true (fun _ => [])
        [⟨"type", .str "x"⟩]).result = .error .typeError ∧
      isNoPermissionErr (edit [⟨"type", "core", "core"⟩] none (fun _ => true) true
        (fun _ => []) [⟨"type", .str "x"⟩]).result = false) :=
  ⟨⟨rfl, rfl⟩, ⟨rfl, rfl⟩, ⟨rfl, rfl⟩⟩

/-- C1 (amended): for every cached setting of access class `core` and every
non-internal (possibly absent) context, `read` yields PermissionDenied
independently of the engine verdict, and `edit` of that single setting
yields PermissionDenied independently of the engine verdict (and never
persists) provided its key is none of `permalinks` (NotFound via the
first-entry veto), `active_theme` (BadRequest) and `type` (stripped during
normalisation). -/
theorem c1_core_access_amended (cache : List Setting) (ctx : Option Context)
    (er ee : String → Bool) (v : Bool) (p : List NEntry → List Setting)
    (k : String) (s : Setting)
    (hs : cacheGet cache k = some s) (hcore : s.type = "core")
    (hext : isInternal ctx = false) :
    read cache ctx er k = .error (.noPermission msgAccessCore) ∧
    (∀ er2, read cache ctx er2 k = read cache ctx er k) ∧
    (k ≠ "permalinks" → k ≠ "active_theme" → k ≠ "type" → ∀ val : JSValue,
      (edit cache ctx ee v p [⟨k, val⟩]).result = .error (.noPermission msgAccessCore) ∧
      (edit cache ctx ee v p [⟨k, val⟩]).persisted = false ∧
      ∀ ee2, edit cache ctx ee2 v p [⟨k, val⟩] = edit cache ctx ee v p [⟨k, val⟩]) := by
  have hkey := cacheGet_key hs
  refine ⟨by simp [read, hs, hcore, hext], fun er2 => by simp [read, hs, hcore, hext],
    fun hp ha ht val => ?_⟩
  have hedit : ∀ ee2 : String → Bool,
      edit cache ctx ee2 v p [⟨k, val⟩] =
        { result := .error (.noPermission msgAccessCore), persisted := false } := by
    intro ee2
    simp [edit, editEntries, editTypeHint, stringifyEntry, editCore, canEditAllSettings,
      entryImmediate, hs, hkey, hcore, hext, hp, ha, ht]
  exact ⟨by rw [hedit ee], by rw [hedit ee], fun ee2 => by rw [hedit ee2, hedit ee]⟩

/-- Witness for the amended C1 at a concrete core setting and absent context. -/
theorem c1_core_access_amended_witness :
    cacheGet [⟨"db_hash", "h", "core"⟩] "db_hash" = some ⟨"db_hash", "h", "core"⟩ ∧
    read [⟨"db_hash", "h", "core"⟩] none (fun _ => true) "db_hash" =
      .error (.noPermission msgAccessCore) :=
  ⟨rfl, (c1_core_access_amended [⟨"db_hash", "h", "core"⟩] none (fun _ => true)
    (fun _ => true) true (fun _ => []) "db_hash" ⟨"db_hash", "h", "core"⟩ rfl rfl rfl).1⟩

/-- C4 counterexample: a `permalinks` entry that is not the first batch entry
passes the veto, so the batch persists and the outcome is not NotFound; and
`read` of a core-class `permalinks` entry from an absent context hits the
core check first and yields PermissionDenied, not NotFound. -/
theorem c4_counterexample :
    (edit [⟨"title", "t", "blog"⟩, ⟨"permalinks", "/:slug/", "blog"⟩]
        (some ⟨true⟩) (fun _ => true) true (fun _ => [])
        [⟨"title", .str "X"⟩, ⟨"permalinks", .str "Y"⟩]).persisted = true ∧
    isNotFoundErr (edit [⟨"title", "t", "blog"⟩, ⟨"permalinks", "/:slug/", "blog"⟩]
        (some ⟨true⟩) (fun _ => true) true (fun _ => [])
        [⟨"title", .str "X"⟩, ⟨"permalinks", .str "Y"⟩]).result = false ∧
    read [⟨"permalinks", "/:slug/", "core"⟩] none (fun _ => true) "permalinks" =
      .error (.noPermission msgAccessCore) ∧
    isNotFoundErr (read [⟨"permalinks", "/:slug/", "core"⟩] none (fun _ => true)
      "permalinks") = false :=
  ⟨rfl, rfl, rfl, rfl⟩

/-- C4 (amended): `read` of key `permalinks` yields NotFound for every
context except when the cached entry is core-class and the context is
non-internal (the core check fires first and yields PermissionDenied); and
`edit` yields NotFound without persisting whenever the first entry of the
normalised batch is keyed `permalinks` — a later `permalinks` entry is
subject only to the ordinary per-entry checks and can be persisted. -/
theorem c4_permalinks_amended (cache : List Setting) (ctx : Option Context)
    (er ee : String → Bool) (v : Bool) (p : List NEntry → List Setting)
    (batch : List RawEntry)
    (hread : permalinksReadVisible cache ctx = true)
    (hfirst : (editEntries batch).head?.map NEntry.key = some "permalinks") :
    isNotFoundErr (read cache ctx er "permalinks") = true ∧
    isNotFoundErr (edit cache ctx ee v p batch).result = true ∧
    (edit cache ctx ee v p batch).persisted = false := by
  have hreadPart : isNotFoundErr (read cache ctx er "permalinks") = true := by
    cases h : cacheGet cache "permalinks" with
    | none => simp [read, h, isNotFoundErr]
    | some s =>
      have hkey := cacheGet_key h
      have hv : (s.type != "core" || isInternal ctx) = true := by
        simpa [permalinksReadVisible, h] using hread
      have hcond : (s.type == "core" && !(isInternal ctx)) = false := by
        cases hb : (s.type == "core") <;> cases hi : isInternal ctx <;> simp_all [bne]
      simp [read, h, hcond, hkey, isNotFoundErr]
  have heditPart : edit cache ctx ee v p batch =
      { result := .error (.notFound msgResourceNotFound), persisted := false } := by
    cases hE : editEntries batch with
    | nil => simp [hE] at hfirst
    | cons first rest =>
      have hfk : first.key = "permalinks" := by simpa [hE] using hfirst
      simp [edit, hE, editCore, hfk]
  exact ⟨hreadPart, by rw [heditPart]; rfl, by rw [heditPart]⟩

/-- Witness for the amended C4 at a blog-class permalinks entry, an absent
context and a batch whose first entry is keyed permalinks. -/
theorem c4_permalinks_amended_witness :
    permalinksReadVisible [⟨"permalinks", "/:slug/", "blog"⟩] none = true ∧
    (editEntries [⟨"permalinks", JSValue.str "v"⟩]).head?.map NEntry.key = some "permalinks" ∧
    isNotFoundErr (read [⟨"permalinks", "/:slug/", "blog"⟩] none (fun _ => true)
      "permalinks") = true :=
  ⟨rfl, rfl, (c4_permalinks_amended [⟨"permalinks", "/:slug/", "blog"⟩] none (fun _ => true)
    (fun _ => true) true (fun _ => []) [⟨"permalinks", .str "v"⟩] rfl rfl).1⟩

/-- C7 counterexample: with no context, `browse` of a cache whose
`permalinks` entry has access class `blog` returns that entry — the
no-context branch filters only by class and never strips `permalinks`. -/
theorem c7_counterexample :
    browse [⟨"permalinks", "/:slug/", "blog"⟩] none none true =
      .ok (.bare [⟨"permalinks", "/:slug/", "blog"⟩]) ∧
    ([Setting.mk "permalinks" "/:slug/" "blog"].any (fun s => s.key == "permalinks")) = true :=
  ⟨rfl, rfl⟩

/-- C7 (amended): `browse` with no context (and no access-class filter)
returns exactly the blog-class settings of the cache snapshot, with no
further exclusion: a `permalinks` entry is included whenever its class is
`blog`.  The permalinks/core stripping happens only on the with-context,
non-internal branch. -/
theorem c7_browse_amended (cache : List Setting) (eng : Bool) :
    ∃ l, browse cache none none eng = .ok (.bare l) ∧
      ∀ s, s ∈ l ↔ s ∈ cache ∧ s.type = "blog" := by
  refine ⟨(settingsResult cache none).settings.filter (fun s => s.type == "blog"),
    rfl, fun s => ?_⟩
  simp [settingsResult, settingsFilter, List.mem_filter]

/-- C5 counterexample: when an entry preceding `active_theme` in the batch
fails its own synchronous check (here: a key missing from the cache), that
earlier rejection is the one surfaced, so the batch outcome is NotFound,
not BadRequest. -/
theorem c5_counterexample :
    (edit [⟨"active_theme", "casper", "theme"⟩] (some ⟨true⟩) (fun _ => true) true
        (fun _ => []) [⟨"ghost_head", .str "x"⟩, ⟨"active_theme", .str "y"⟩]).result =
      .error (.notFound (msgProblemFinding "ghost_head")) ∧
    isBadRequestErr (edit [⟨"active_theme", "casper", "theme"⟩] (some ⟨true⟩) (fun _ => true)
      true (fun _ => []) [⟨"ghost_head", .str "x"⟩, ⟨"active_theme", .str "y"⟩]).result =
      false :=
  ⟨rfl, rfl⟩

/-- C5 (amended): every edit whose normalised batch contains an entry keyed
`active_theme` rejects without ever invoking the persistence collaborator,
regardless of context, engine verdict and the other entries; the surfaced
error is the fixed BadRequest provided the first entry is not the
`permalinks` veto, `active_theme` is present in the cache, and no earlier
entry fails its own synchronous check (missing key or core-from-external) —
otherwise that earlier error is surfaced instead. -/
theorem c5_active_theme_amended (cache : List Setting) (ctx : Option Context)
    (ee : String → Bool) (v : Bool) (p : List NEntry → List Setting)
    (batch : List RawEntry)
    (hmem : (editEntries batch).any (fun e => e.key == "active_theme") = true) :
    (isErr (edit cache ctx ee v p batch).result = true ∧
      (edit cache ctx ee v p batch).persisted = false) ∧
    (∀ pre athm post, editEntries batch = pre ++ athm :: post →
      athm.key = "active_theme" →
      (∀ e ∈ pre, entryImmediate cache ctx e = none) →
      (editEntries batch).head?.map NEntry.key ≠ some "permalinks" →
      (cacheGet cache "active_theme").isSome = true →
      (edit cache ctx ee v p batch).result = .error (.badRequest msgActiveTheme)) := by
  obtain ⟨e, he, hk⟩ := List.any_eq_true.mp hmem
  have hk2 : e.key = "active_theme" := eq_of_beq hk
  have himm : ∃ err, entryImmediate cache ctx e = some err := by
    cases hc : cacheGet cache e.key with
    | none =>
      exact ⟨.notFound (msgProblemFinding e.key), by simp [entryImmediate, hc]⟩
    | some s =>
      have hsk : s.key = "active_theme" := (cacheGet_key hc).trans hk2
      rw [hk2] at hc
      exact ⟨.badRequest msgActiveTheme, by simp [entryImmediate, hk2, hc, hsk]⟩
  obtain ⟨err, herr⟩ := himm
  obtain ⟨c, hfs⟩ := findSome?_isSome_of_mem he herr
  constructor
  · have hcan : canEditAllSettings cache ctx ee (editEntries batch) = .error c := by
      simp [canEditAllSettings, hfs]
    cases hE : editEntries batch with
    | nil => rw [hE] at he; simp at he
    | cons f r =>
      by_cases hf : f.key = "permalinks"
      · constructor <;> simp [edit, hE, editCore, hf, isErr]
      · rw [hE] at hcan
        constructor <;> simp [edit, hE, editCore, beq_false_of_ne hf, hcan, isErr]
  · intro pre athm post hsplit hathm hpre hhead hsome
    obtain ⟨s, hs⟩ := Option.isSome_iff_exists.mp hsome
    have hskey : s.key = "active_theme" := cacheGet_key hs
    have hathmImm : entryImmediate cache ctx athm = some (.badRequest msgActiveTheme) := by
      simp [entryImmediate, hathm, hs, hskey]
    have hfind : (editEntries batch).findSome? (entryImmediate cache ctx) =
        some (.badRequest msgActiveTheme) := by
      rw [hsplit, findSome?_append_left_none pre (athm :: post) hpre]
      simp [List.findSome?_cons, hathmImm]
    have hcan : canEditAllSettings cache ctx ee (editEntries batch) =
        .error (.badRequest msgActiveTheme) := by
      simp [canEditAllSettings, hfind]
    cases hE : editEntries batch with
    | nil =>
      rw [hE] at hsplit
      have hlen := congrArg List.length hsplit
      simp only [List.length_nil, List.length_append, List.length_cons] at hlen
      exact absurd hlen (by omega)
    | cons f r =>
      have hfk : f.key ≠ "permalinks" := by
        rw [hE] at hhead; simpa using hhead
      rw [hE] at hcan
      simp [edit, hE, editCore, beq_false_of_ne hfk, hcan]

/-- Witness for the amended C5 at a singleton `active_theme` batch. -/
theorem c5_active_theme_amended_witness :
    (editEntries [⟨"active_theme", JSValue.str "x"⟩]).any
      (fun e => e.key == "active_theme") = true ∧
    isErr (edit [⟨"active_theme", "casper", "theme"⟩] none (fun _ => true) true
      (fun _ => []) [⟨"active_theme", .str "x"⟩]).result = true :=
  ⟨rfl, ((c5_active_theme_amended [⟨"active_theme", "casper", "theme"⟩] none (fun _ => true)
    true (fun _ => []) [⟨"active_theme", .str "x"⟩] rfl).1).1⟩

/-- C6 (confirmed): batch authorisation is all-or-nothing — if any entry of
the normalised batch fails its per-entry check (a synchronous rejection:
missing key, `active_theme`, core-from-external; or an engine denial), the
whole edit rejects and the persistence collaborator is never invoked, so no
entry of the batch is persisted. -/
theorem c6_all_or_nothing (cache : List Setting) (ctx : Option Context)
    (ee : String → Bool) (v : Bool) (p : List NEntry → List Setting)
    (batch : List RawEntry) (e : NEntry)
    (hmem : e ∈ editEntries batch)
    (hfail : ¬(entryImmediate cache ctx e = none ∧ ee e.key = true)) :
    isErr (edit cache ctx ee v p batch).result = true ∧
    (edit cache ctx ee v p batch).persisted = false := by
  have hcanErr : ∃ c, canEditAllSettings cache ctx ee (editEntries batch) = .error c := by
    cases himm : entryImmediate cache ctx e with
    | some err =>
      obtain ⟨c, hfs⟩ := findSome?_isSome_of_mem hmem himm
      exact ⟨c, by simp [canEditAllSettings, hfs]⟩
    | none =>
      have hee : ee e.key = false := by
        rcases Bool.eq_false_or_eq_true (ee e.key) with h | h
        · exact absurd ⟨himm, h⟩ hfail
        · exact h
      cases hfs : (editEntries batch).findSome? (entryImmediate cache ctx) with
      | some c => exact ⟨c, by simp [canEditAllSettings, hfs]⟩
      | none =>
        refine ⟨.noPermission msgNoPermEdit, ?_⟩
        have hall : (editEntries batch).all (fun x => ee x.key) = false := by
          cases hb : (editEntries batch).all (fun x => ee x.key)
          · rfl
          · have hx := List.all_eq_true.mp hb e hmem
            rw [hee] at hx
            exact absurd hx (by simp)
        simp [canEditAllSettings, hfs, hall]
  obtain ⟨c, hcan⟩ := hcanErr
  cases hE : editEntries batch with
  | nil => rw [hE] at hmem; simp at hmem
  | cons f r =>
    by_cases hf : f.key = "permalinks"
    · constructor <;> simp [edit, hE, editCore, hf, isErr]
    · rw [hE] at hcan
      constructor <;> simp [edit, hE, editCore, beq_false_of_ne hf, hcan, isErr]

/-- Witness for C6: a two-entry batch whose second entry is missing from the
cache rejects as a whole, although its first entry passes every check. -/
theorem c6_all_or_nothing_witness :
    (⟨"ghost_head", "x"⟩ : NEntry) ∈
      editEntries [⟨"title", JSValue.str "t"⟩, ⟨"ghost_head", JSValue.str "x"⟩] ∧
    ¬(entryImmediate [⟨"title", "t", "blog"⟩] (some ⟨true⟩) ⟨"ghost_head", "x"⟩ = none ∧
      (fun _ : String => true) "ghost_head" = true) ∧
    isErr (edit [⟨"title", "t", "blog"⟩] (some ⟨true⟩) (fun _ => true) true (fun _ => [])
      [⟨"title", .str "t"⟩, ⟨"ghost_head", .str "x"⟩]).result = true :=
  ⟨by decide, by decide,
    (c6_all_or_nothing [⟨"title", "t", "blog"⟩] (some ⟨true⟩) (fun _ => true) true
      (fun _ => []) [⟨"title", .str "t"⟩, ⟨"ghost_head", .str "x"⟩] ⟨"ghost_head", "x"⟩
      (by decide) (by decide)).1⟩

/-- C9 (confirmed): edit normalisation replaces every non-string value by its
canonical string serialisation and removes every entry keyed `type` before
the veto, authorisation, validation and persistence steps; the removed
entry's (stringified) value survives only as the access-class filter hint of
the projected result.  The entry list the pipeline works on equals the
original batch with `type` entries filtered out and values stringified, and
the hint is the stringified value of the first `type` entry. -/
theorem c9_edit_normalization (cache : List Setting) (ctx : Option Context)
    (ee : String → Bool) (v : Bool) (p : List NEntry → List Setting)
    (batch : List RawEntry) :
    editEntries batch = (batch.filter (fun e => e.key != "type")).map stringifyEntry ∧
    editTypeHint batch =
      (batch.find? (fun e => e.key == "type")).map (fun e => stringifyVal e.value) ∧
    edit cache ctx ee v p batch =
      editCore cache ctx ee v p (editEntries batch) (editTypeHint batch) := by
  refine ⟨?_, ?_, rfl⟩
  · induction batch with
    | nil => rfl
    | cons a l ih =>
      simp only [editEntries] at ih ⊢
      simp only [List.map_cons, List.filter_cons]
      by_cases h : a.key = "type"
      · simp [stringifyEntry, h, ih]
      · simp [stringifyEntry, h, ih]
  · induction batch with
    | nil => rfl
    | cons a l ih =>
      simp only [editTypeHint] at ih ⊢
      rw [List.map_cons]
      by_cases h : a.key = "type"
      · have h1 : ((fun e : NEntry => e.key == "type") (stringifyEntry a)) = true := by
          simp [stringifyEntry, h]
        have h2 : ((fun e : RawEntry => e.key == "type") a) = true := by simp [h]
        rw [@List.find?_cons_of_pos NEntry (fun e => e.key == "type") (stringifyEntry a)
            (List.map stringifyEntry l) h1,
          @List.find?_cons_of_pos RawEntry (fun e => e.key == "type") a l h2]
        simp [stringifyEntry]
      · have h1 : ¬((fun e : NEntry => e.key == "type") (stringifyEntry a)) = true := by
          simp [stringifyEntry, h]
        have h2 : ¬((fun e : RawEntry => e.key == "type") a) = true := by simp [h]
        rw [@List.find?_cons_of_neg NEntry (fun e => e.key == "type") (stringifyEntry a)
            (List.map stringifyEntry l) h1,
          @List.find?_cons_of_neg RawEntry (fun e => e.key == "type") a l h2]
        exact ih

/-- C10 (confirmed): a batch that is empty after normalisation (an empty
settings list, or one consisting only of `type` entries) makes the
structural first-entry check dereference a missing element, so edit ends in
the runtime TypeError — none of the specified NotFound, PermissionDenied,
BadRequest or ValidationError outcomes — and nothing is persisted. -/
theorem c10_empty_batch (cache : List Setting) (ctx : Option Context)
    (ee : String → Bool) (v : Bool) (p : List NEntry → List Setting)
    (batch : List RawEntry)
    (hall : batch.all (fun e => e.key == "type") = true) :
    (edit cache ctx ee v p batch).result = .error .typeError ∧
    (edit cache ctx ee v p batch).persisted = false ∧
    isNotFoundErr (edit cache ctx ee v p batch).result = false ∧
    isNoPermissionErr (edit cache ctx ee v p batch).result = false ∧
    isBadRequestErr (edit cache ctx ee v p batch).result = false ∧
    (edit cache ctx ee v p batch).result ≠ .error .validation := by
  have hE : editEntries batch = [] := by
    rw [editEntries, List.filter_eq_nil_iff]
    intro e he
    obtain ⟨a, ha, rfl⟩ := List.mem_map.mp he
    have hk := List.all_eq_true.mp hall a ha
    simp [stringifyEntry, eq_of_beq hk]
  refine ⟨?_, ?_, ?_, ?_, ?_, ?_⟩ <;> simp [edit, hE, editCore, isNotFoundErr,
    isNoPermissionErr, isBadRequestErr]

/-- Witness for C10 at a batch holding only the synthetic `type` entry. -/
theorem c10_empty_batch_witness :
    ([⟨"type", JSValue.str "blog"⟩] : List RawEntry).all (fun e => e.key == "type") = true ∧
    (edit [] none (fun _ => true) true (fun _ => []) [⟨"type", .str "blog"⟩]).result =
      .error .typeError :=
  ⟨rfl, (c10_empty_batch [] none (fun _ => true) true (fun _ => [])
    [⟨"type", .str "blog"⟩] rfl).1⟩

end GhostSettings
